import Mathlib

/- Verification development for the repository pages pixel.py (interactive
pixel-art editor) and app.py (image mixer). The grid and shape arithmetic of
pixel.py is embedded with exact rational coordinates; machine bytes are
plain naturals. -/

/-- An RGB triple, one byte per channel. -/
abbrev Color := ℕ × ℕ × ℕ

/-- The editor grid: a row-major list of rows of RGB triples, the shallow
embedding of the numpy array of shape (n, n, 3). -/
abbrev Grid := List (List Color)

/-- The white cell value 255, 255, 255. -/
def white : Color := (255, 255, 255)

/-- np.full((n, n, 3), 255): an n by n grid of white cells. -/
def whiteGrid (n : ℕ) : Grid := List.replicate n (List.replicate n white)

/-- Read cell (y, x) of a grid; out-of-range reads default to black. The code
only ever indexes in range. -/
def getCell (g : Grid) (y x : ℕ) : Color := (g.getD y []).getD x (0, 0, 0)

/-- Write cell (y, x), as in new_data[y_coord, x_coord] = rgb. Out-of-range
writes leave the grid unchanged. -/
def setCell (g : Grid) (y x : ℕ) (c : Color) : Grid :=
  g.set y ((g.getD y []).set x c)

/-- Each channel fits in a byte. -/
abbrev colorValid (c : Color) : Prop := c.1 ≤ 255 ∧ c.2.1 ≤ 255 ∧ c.2.2 ≤ 255

/-- The grid is an n by n matrix. -/
abbrev gridDims (n : ℕ) (g : Grid) : Prop :=
  g.length = n ∧ ∀ row ∈ g, row.length = n

/-- The grid is an n by n matrix of valid RGB triples: the PixelGrid
invariant of the spec. -/
abbrev gridValid (n : ℕ) (g : Grid) : Prop :=
  gridDims n g ∧ ∀ row ∈ g, ∀ c ∈ row, colorValid c

/-- Lowercase hexadecimal rendering of n, as produced by the Python format
code x. -/
def hexStr (n : ℕ) : List Char := Nat.toDigits 16 n

/-- The Python format code 02x: hexadecimal, left padded with the digit zero
to a width of two. -/
def hex2 (n : ℕ) : String :=
  String.mk
    (if (hexStr n).length < 2
      then List.replicate (2 - (hexStr n).length) '0' ++ hexStr n
      else hexStr n)

/-- rgb_to_hex from pixel.py: the f-string concatenating a hash sign with the
three channels, each rendered with format code 02x. -/
def rgb_to_hex (c : Color) : String :=
  "#" ++ hex2 c.1 ++ hex2 c.2.1 ++ hex2 c.2.2

/-- Value of one hexadecimal digit: 0 to 9, a to f, A to F. -/
def hexDigitVal (c : Char) : Option ℕ :=
  if 48 ≤ c.toNat ∧ c.toNat ≤ 57 then some (c.toNat - 48)
  else if 97 ≤ c.toNat ∧ c.toNat ≤ 102 then some (c.toNat - 87)
  else if 65 ≤ c.toNat ∧ c.toNat ≤ 70 then some (c.toNat - 55)
  else none

/-- The ASCII whitespace characters Python strips around an int literal;
unicode space forms are not modelled. -/
def isPySpace (c : Char) : Bool :=
  c.toNat = 32 || c.toNat = 9 || c.toNat = 10 || c.toNat = 13 ||
    c.toNat = 11 || c.toNat = 12

/-- The digit run of a Python int literal in base 16: a digit extends the
value; a single underscore is allowed only directly after a digit and must
be followed by another digit. The flag records whether the previous
character was a digit. -/
def parseHexDigitsAux : ℕ → Bool → List Char → Option ℕ
  | acc, flag, [] => if flag then some acc else none
  | acc, flag, c :: cs =>
    match hexDigitVal c with
    | some d => parseHexDigitsAux (16 * acc + d) true cs
    | none => if c.toNat = 95 ∧ flag then parseHexDigitsAux acc false cs else none

/-- The part after the optional sign: an optional 0x or 0X prefix, after
which one underscore may appear, then the digit run. -/
def parseHexBody : List Char → Option ℕ
  | c0 :: c1 :: rest =>
    if c0 = '0' ∧ (c1 = 'x' ∨ c1 = 'X') then
      if rest.head? = some '_' then parseHexDigitsAux 0 false rest.tail
      else parseHexDigitsAux 0 false rest
    else parseHexDigitsAux 0 false (c0 :: c1 :: rest)
  | short => parseHexDigitsAux 0 false short

/-- Whitespace stripping on both ends, as Python applies around an int
literal. -/
def pyStrip (cs : List Char) : List Char :=
  ((cs.dropWhile (fun c => isPySpace c)).reverse.dropWhile
    (fun c => isPySpace c)).reverse

/-- Python int(s, 16) on an ASCII string: optional surrounding whitespace,
an optional sign, an optional 0x prefix and hexadecimal digits with single
underscores between them; anything else raises ValueError, modelled as
none. Unicode digit and space forms are not modelled. -/
def parseIntHex (cs : List Char) : Option ℤ :=
  if (pyStrip cs).head? = some '+' then
    (parseHexBody (pyStrip cs).tail).map (fun v : ℕ => (v : ℤ))
  else if (pyStrip cs).head? = some '-' then
    (parseHexBody (pyStrip cs).tail).map (fun v : ℕ => -(v : ℤ))
  else (parseHexBody (pyStrip cs)).map (fun v : ℕ => (v : ℤ))

/-- The slice s[i : i + 2] of the fill string, then int(_, 16), as in the
expression int(hex_color[i:i+2], 16) of pixel.py. -/
def parseFillAt (cs : List Char) (i : ℕ) : Option ℤ :=
  parseIntHex ((cs.drop i).take 2)

/-- The rgb extraction of the canvas-result loop: int(slice, 16) at
positions 1, 3 and 5 of the fill string, then the write into the unsigned
byte array. A slice int rejects raises ValueError, and a negative parsed
component is rejected by the uint8 conversion (OverflowError); either way
the run aborts, which is the FormatError of the spec taxonomy. -/
def parseFill (s : String) : Option Color :=
  match parseFillAt s.toList 1, parseFillAt s.toList 3, parseFillAt s.toList 5 with
  | some r, some g, some b =>
    if 0 ≤ r ∧ 0 ≤ g ∧ 0 ≤ b then some (r.toNat, g.toNat, b.toNat) else none
  | _, _, _ => none

/-- One drawable-canvas rectangle record, as produced by
create_initial_drawing_json and consumed by the canvas-result loop.
Coordinates are modelled as exact rationals. -/
structure CanvasObj where
  type : String
  left : ℚ
  top : ℚ
  width : ℚ
  height : ℚ
  fill : String
  stroke : String
  strokeWidth : ℚ
  selectable : Bool
  evented : Bool
deriving DecidableEq

/-- The rectangle dictionary built for cell (y, x) in
create_initial_drawing_json, carrying the exact real values of the
coordinate expressions; cellRectF below gives their binary64 evaluation. -/
def cellRect (pixel_size : ℚ) (g : Grid) (y x : ℕ) : CanvasObj :=
  { type := "rect", left := x * pixel_size, top := y * pixel_size,
    width := pixel_size, height := pixel_size,
    fill := rgb_to_hex (getCell g y x), stroke := "#DDDDDD", strokeWidth := 1,
    selectable := false, evented := false }

/-- The initial_drawing JSON structure. -/
structure InitialDrawing where
  objects : List CanvasObj
  background : String

/-- create_initial_drawing_json from pixel.py: the size is the first grid
dimension, the cell size is display_size / size, and one rect is appended per
cell, rows outer, columns inner. -/
def create_initial_drawing_json (canvas_data : Grid) (display_size : ℚ) : InitialDrawing :=
  let size := canvas_data.length
  let pixel_size := display_size / size
  { objects :=
      (List.range size).flatMap
        (fun y => (List.range size).map (fun x => cellRect pixel_size canvas_data y x)),
    background := "#FFFFFF" }

/-- Python int() applied to a real value: truncation toward zero, the floor
for nonnegative values and the ceiling for negative ones. -/
def ratTrunc (q : ℚ) : ℤ := if 0 ≤ q then ⌊q⌋ else ⌈q⌉

/-- One iteration of the canvas-result loop of main in pixel.py: skip records
whose type is not rect, truncate the scaled position, parse the fill, then
write the cell when both indices are in range.  Positions divide at their
exact real values here; applyObjF below gives the binary64 evaluation. -/
def applyObj (size : ℕ) (pixel_size : ℚ) (g : Grid) (obj : CanvasObj) : Except String Grid :=
  if obj.type = "rect" then
    let x_coord := ratTrunc (obj.left / pixel_size)
    let y_coord := ratTrunc (obj.top / pixel_size)
    match parseFill obj.fill with
    | none => Except.error "FormatError"
    | some rgb =>
      if (0 ≤ y_coord ∧ y_coord < (size : ℤ)) ∧ (0 ≤ x_coord ∧ x_coord < (size : ℤ)) then
        Except.ok (setCell g y_coord.toNat x_coord.toNat rgb)
      else Except.ok g
  else Except.ok g

/-- The canvas-result loop over the object list, threading the grid. -/
def reduceLoop (size : ℕ) (pixel_size : ℚ) : Grid → List CanvasObj → Except String Grid
  | g, [] => Except.ok g
  | g, obj :: rest =>
    match applyObj size pixel_size g obj with
    | Except.ok g2 => reduceLoop size pixel_size g2 rest
    | Except.error e => Except.error e

/-- The whole shapes-to-grid reduction of pixel.py: a fresh white grid of the
current size, then the loop over the objects with cell size
display_size / size. -/
def reduceShapes (size : ℕ) (display_size : ℚ) (objs : List CanvasObj) : Except String Grid :=
  reduceLoop size (display_size / size) (whiteGrid size) objs

/- The definitions above carry the exact real value of every coordinate
expression.  The Python runtime evaluates those expressions in IEEE-754
binary64, where each operation rounds its exact result to 53 significant
bits; the round trip of the projection depends on that rounding.  The
following block models binary64 rounding and restates the projection and
reduction over the values the program actually computes.  Every quantity
of this program stays far inside the normal exponent range, so overflow,
underflow and subnormals need no modelling. -/

/-- Fueled floor of the base-2 logarithm on naturals. -/
def log2Fuel : ℕ → ℕ → ℕ
  | 0, _ => 0
  | fuel + 1, n => if n ≤ 1 then 0 else log2Fuel fuel (n / 2) + 1

/-- Floor of the base-2 logarithm of a natural number. -/
def natLog2 (n : ℕ) : ℕ := log2Fuel n n

/-- Whether 2 ^ k ≤ a / b, for positive naturals a and b and k an integer. -/
def pow2LEFrac (k : ℤ) (a b : ℕ) : Bool :=
  if 0 ≤ k then decide (b * 2 ^ k.toNat ≤ a) else decide (b ≤ a * 2 ^ (-k).toNat)

/-- Floor of the base-2 logarithm of the positive rational a / b. -/
def floorLog2Frac (a b : ℕ) : ℤ :=
  let k : ℤ := (natLog2 a : ℤ) - (natLog2 b : ℤ)
  if pow2LEFrac k a b then k else k - 1

/-- Round A / B to the nearest natural, ties to even. -/
def roundNENat (A B : ℕ) : ℕ :=
  let m := A / B
  let r := A % B
  if 2 * r < B then m
  else if B < 2 * r then m + 1
  else if m % 2 = 0 then m else m + 1

/-- IEEE-754 binary64 rounding of an exact rational, round to nearest with
ties to even: the magnitude is scaled by the power of two that floors it
into the 53-bit significand range and the scaled value is rounded to the
nearest integer, ties to even.  This is the value a Python float holds
after each arithmetic operation of pixel.py. -/
def roundB64 (q : ℚ) : ℚ :=
  if q.num = 0 then 0
  else
    let a : ℕ := q.num.natAbs
    let b : ℕ := q.den
    let e : ℤ := floorLog2Frac a b - 52
    let A : ℕ := if e ≤ 0 then a * 2 ^ (-e).toNat else a
    let B : ℕ := if e ≤ 0 then b else b * 2 ^ e.toNat
    let m : ℕ := roundNENat A B
    let mz : ℤ := if q.num < 0 then -(m : ℤ) else (m : ℤ)
    if 0 ≤ e then Rat.divInt (mz * 2 ^ e.toNat) 1
    else Rat.divInt mz ((2 ^ (-e).toNat : ℕ) : ℤ)

/-- The rectangle dictionary for cell (y, x) as evaluated in binary64: the
products x * pixel_size and y * pixel_size round once each; pixel_size
arrives already rounded. -/
def cellRectF (pixel_size : ℚ) (g : Grid) (y x : ℕ) : CanvasObj :=
  { type := "rect", left := roundB64 ((x : ℚ) * pixel_size),
    top := roundB64 ((y : ℚ) * pixel_size),
    width := pixel_size, height := pixel_size,
    fill := rgb_to_hex (getCell g y x), stroke := "#DDDDDD", strokeWidth := 1,
    selectable := false, evented := false }

/-- create_initial_drawing_json as evaluated in binary64: pixel_size is the
one rounded division display_size / size. -/
def create_initial_drawing_json_fl (canvas_data : Grid) (display_size : ℚ) :
    InitialDrawing :=
  let size := canvas_data.length
  let pixel_size := roundB64 (display_size / (size : ℚ))
  { objects :=
      (List.range size).flatMap
        (fun y => (List.range size).map (fun x => cellRectF pixel_size canvas_data y x)),
    background := "#FFFFFF" }

/-- One iteration of the canvas-result loop as evaluated in binary64: the
divisions obj.left / pixel_size and obj.top / pixel_size round once each
before int() truncates them. -/
def applyObjF (size : ℕ) (pixel_size : ℚ) (g : Grid) (obj : CanvasObj) :
    Except String Grid :=
  if obj.type = "rect" then
    let x_coord := ratTrunc (roundB64 (obj.left / pixel_size))
    let y_coord := ratTrunc (roundB64 (obj.top / pixel_size))
    match parseFill obj.fill with
    | none => Except.error "FormatError"
    | some rgb =>
      if (0 ≤ y_coord ∧ y_coord < (size : ℤ)) ∧ (0 ≤ x_coord ∧ x_coord < (size : ℤ)) then
        Except.ok (setCell g y_coord.toNat x_coord.toNat rgb)
      else Except.ok g
  else Except.ok g

/-- The canvas-result loop over the object list in binary64. -/
def reduceLoopF (size : ℕ) (pixel_size : ℚ) : Grid → List CanvasObj → Except String Grid
  | g, [] => Except.ok g
  | g, obj :: rest =>
    match applyObjF size pixel_size g obj with
    | Except.ok g2 => reduceLoopF size pixel_size g2 rest
    | Except.error e => Except.error e

/-- The whole shapes-to-grid reduction in binary64: a fresh white grid, then
the loop with the rounded cell size display_size / size. -/
def reduceShapesF (size : ℕ) (display_size : ℚ) (objs : List CanvasObj) :
    Except String Grid :=
  reduceLoopF size (roundB64 (display_size / (size : ℚ))) (whiteGrid size) objs

instance exceptDecEq {α β : Type} [DecidableEq α] [DecidableEq β] :
    DecidableEq (Except α β)
  | Except.ok x, Except.ok y =>
    match decEq x y with
    | isTrue h => isTrue (h ▸ rfl)
    | isFalse h => isFalse (fun hh => h (Except.ok.inj hh))
  | Except.error e, Except.error f =>
    match decEq e f with
    | isTrue h => isTrue (h ▸ rfl)
    | isFalse h => isFalse (fun hh => h (Except.error.inj hh))
  | Except.ok _, Except.error _ => isFalse (fun hh => Except.noConfusion hh)
  | Except.error _, Except.ok _ => isFalse (fun hh => Except.noConfusion hh)

/-- The editor session state: declared size and grid. -/
structure EditorState where
  canvas_size : ℕ
  canvas_data : Grid
deriving DecidableEq

/-- A source raster image: dimensions and a pixel function. -/
structure PImage where
  width : ℕ
  height : ℕ
  pix : ℕ → ℕ → Color

/-- Modelled from the spec: nearest-neighbor downsampling (the PIL resize
call with resample NEAREST), whose implementation is not part of this
repository. Each target pixel samples the source at the center-mapped
coordinate. -/
def resizeNearest (img : PImage) (w h : ℕ) : PImage :=
  { width := w, height := h,
    pix := fun x y =>
      img.pix ((2 * x + 1) * img.width / (2 * w)) ((2 * y + 1) * img.height / (2 * h)) }

/-- apply_pixelation from pixel.py: resize to size by size with NEAREST, then
read the pixel array row-major. -/
def apply_pixelation (img : PImage) (size : ℕ) : Grid :=
  let img_small := resizeNearest img size size
  (List.range size).map (fun y => (List.range size).map (fun x => img_small.pix x y))

/-- The uploaded-file slot at the moment the apply button is pressed: empty,
an undecodable file, or a decoded image. -/
inductive Upload
  | blank
  | undecodable
  | image (img : PImage)

/-- The three editor-state operations of pixel.py. -/
inductive EditorOp
  | applySize (newSize : ℕ) (upload : Upload)
  | resetCanvas
  | canvasEdit (objs : List CanvasObj)

/-- The Apply Size / Import Image button of pixel.py: the declared size is
updated first; a decode failure of the upload is caught after that point,
leaving the grid untouched; a blank slot yields a fresh white grid; a decoded
image is pixelated to the new size. -/
def apply_size_action (s : EditorState) (newSize : ℕ) (u : Upload) : EditorState :=
  let s1 : EditorState := { s with canvas_size := newSize }
  match u with
  | Upload.blank => { s1 with canvas_data := whiteGrid newSize }
  | Upload.undecodable => s1
  | Upload.image img => { s1 with canvas_data := apply_pixelation img newSize }

/-- The canvas-result update of pixel.py: nothing happens for an empty object
list; a FormatError aborts the run and the prior grid is kept; otherwise the
reduced grid replaces the session grid. -/
def canvas_edit_action (s : EditorState) (objs : List CanvasObj) : EditorState :=
  if objs = [] then s
  else
    match reduceShapes s.canvas_size 512 objs with
    | Except.ok g => { s with canvas_data := g }
    | Except.error _ => s

/-- One editor-state operation. -/
def stepEditor (s : EditorState) : EditorOp → EditorState
  | EditorOp.applySize n u => apply_size_action s n u
  | EditorOp.resetCanvas => { s with canvas_data := whiteGrid s.canvas_size }
  | EditorOp.canvasEdit objs => canvas_edit_action s objs

/-- The session state created on first load: a blank white 16 by 16 grid. -/
def initialState : EditorState := { canvas_size := 16, canvas_data := whiteGrid 16 }

/-- A decodable raster image: positive dimensions, every pixel a valid RGB
triple. -/
abbrev imgValid (img : PImage) : Prop :=
  0 < img.width ∧ 0 < img.height ∧
    ∀ x, x < img.width → ∀ y, y < img.height → colorValid (img.pix x y)

/-- The EditorState invariant of the spec. -/
abbrev stateValid (s : EditorState) : Prop := gridValid s.canvas_size s.canvas_data

/-- Operations whose library calls succeed: an apply with an undecodable
upload is excluded, an apply with a decoded image requires a well-formed
image. -/
def opOK : EditorOp → Prop
  | EditorOp.applySize _ Upload.undecodable => False
  | EditorOp.applySize _ (Upload.image img) => imgValid img
  | _ => True

/-- The row-major enumeration of all cell coordinates of an n by n grid. -/
def pairsList (n : ℕ) : List (ℕ × ℕ) :=
  (List.range n).flatMap (fun y => (List.range n).map (Prod.mk y))

/-- Copy the listed cells of gsrc onto g0, in order. -/
def writeCells (gsrc g0 : Grid) (ps : List (ℕ × ℕ)) : Grid :=
  ps.foldl (fun g yx => setCell g yx.1 yx.2 (getCell gsrc yx.1 yx.2)) g0

/- Definitions for app.py, the mixer page. The PIL library calls are not part
of this repository; they are modelled from the spec pipeline description. -/

/-- Conversion of an exact intermediate value to a byte: clip, then drop the
fraction. -/
def byteOfRat (q : ℚ) : ℕ :=
  if q ≤ 0 then 0 else if 255 ≤ q then 255 else Int.toNat ⌊q⌋

/-- One channel of the interpolation degenerate + factor * (image -
degenerate). -/
def blendByte (d c : ℕ) (f : ℚ) : ℕ :=
  byteOfRat ((d : ℚ) + f * ((c : ℚ) - (d : ℚ)))

/-- Pointwise interpolation of a color. -/
def blendColor (d c : Color) (f : ℚ) : Color :=
  (blendByte d.1 c.1 f, blendByte d.2.1 c.2.1 f, blendByte d.2.2 c.2.2 f)

/-- Modelled from the spec: PIL Image.blend of a degenerate image with the
input image, the common core of the ImageEnhance classes, which are not part
of this repository. -/
def blendImage (degenerate img : PImage) (f : ℚ) : PImage :=
  { width := img.width, height := img.height,
    pix := fun x y => blendColor (degenerate.pix x y) (img.pix x y) f }

/-- The all-black image. -/
def blackImage (w h : ℕ) : PImage := { width := w, height := h, pix := fun _ _ => (0, 0, 0) }

/-- A single-color image. -/
def solidImage (w h : ℕ) (c : Color) : PImage := { width := w, height := h, pix := fun _ _ => c }

/-- Modelled from the spec: the ITU-R 601-2 luma transform of the PIL
grayscale conversion. -/
def lumaByte (c : Color) : ℕ :=
  (19595 * c.1 + 38470 * c.2.1 + 7471 * c.2.2 + 32768) / 65536

/-- The grayscale rendering of an image, each channel set to the luma. -/
def grayImage (img : PImage) : PImage :=
  { width := img.width, height := img.height,
    pix := fun x y => (lumaByte (img.pix x y), lumaByte (img.pix x y), lumaByte (img.pix x y)) }

/-- Sum of the luma over all pixels. -/
def sumLuma (img : PImage) : ℕ :=
  ((List.range img.height).map
    (fun y => ((List.range img.width).map (fun x => lumaByte (img.pix x y))).sum)).sum

/-- Modelled from the spec: the rounded mean gray level used as the
degenerate image of the contrast enhancer. -/
def meanByte (img : PImage) : ℕ :=
  (2 * sumLuma img + img.width * img.height) / (2 * (img.width * img.height))

/-- Modelled from the spec: ImageEnhance.Brightness, a blend with the black
image. -/
def enhanceBrightness (img : PImage) (f : ℚ) : PImage :=
  blendImage (blackImage img.width img.height) img f

/-- Modelled from the spec: ImageEnhance.Color, a blend with the grayscale
image. -/
def enhanceColor (img : PImage) (f : ℚ) : PImage :=
  blendImage (grayImage img) img f

/-- Modelled from the spec: ImageEnhance.Contrast, a blend with the solid
mean-gray image. -/
def enhanceContrast (img : PImage) (f : ℚ) : PImage :=
  blendImage (solidImage img.width img.height (meanByte img, meanByte img, meanByte img)) img f

/-- Clip an exact convolution result to a byte. -/
def clampByte (z : ℤ) : ℕ := if z ≤ 0 then 0 else if 255 ≤ z then 255 else z.toNat

/-- Modelled from the spec: one channel of a square-kernel convolution as in
the PIL kernel filters. -/
def convChannel (ksize : ℕ) (kernel : List ℤ) (scale offset : ℤ)
    (chan : ℕ → ℕ → ℕ) (x y : ℕ) : ℕ :=
  clampByte
    ((List.range (ksize * ksize)).foldl
      (fun acc i =>
        acc + kernel.getD i 0 *
          (chan (x + i % ksize - ksize / 2) (y + i / ksize - ksize / 2) : ℤ))
      0 / scale + offset)

/-- Modelled from the spec: a PIL built-in kernel filter; interior pixels get
the scaled convolution, border pixels keep their source value. -/
def kernelFilter (ksize : ℕ) (kernel : List ℤ) (scale offset : ℤ) (img : PImage) : PImage :=
  { width := img.width, height := img.height,
    pix := fun x y =>
      if ksize / 2 ≤ x ∧ x + ksize / 2 < img.width ∧ ksize / 2 ≤ y ∧ y + ksize / 2 < img.height then
        (convChannel ksize kernel scale offset (fun a b => (img.pix a b).1) x y,
         convChannel ksize kernel scale offset (fun a b => (img.pix a b).2.1) x y,
         convChannel ksize kernel scale offset (fun a b => (img.pix a b).2.2) x y)
      else img.pix x y }

/-- Modelled from the spec: the PIL BLUR filter constants. -/
def filterBLUR (img : PImage) : PImage :=
  kernelFilter 5 [1, 1, 1, 1, 1, 1, 0, 0, 0, 1, 1, 0, 0, 0, 1, 1, 0, 0, 0, 1, 1, 1, 1, 1, 1] 16 0 img

/-- Modelled from the spec: the PIL CONTOUR filter constants. -/
def filterCONTOUR (img : PImage) : PImage :=
  kernelFilter 3 [-1, -1, -1, -1, 8, -1, -1, -1, -1] 1 255 img

/-- Modelled from the spec: the PIL DETAIL filter constants. -/
def filterDETAIL (img : PImage) : PImage :=
  kernelFilter 3 [0, -1, 0, -1, 10, -1, 0, -1, 0] 6 0 img

/-- Modelled from the spec: the PIL EDGE_ENHANCE filter constants. -/
def filterEDGE_ENHANCE (img : PImage) : PImage :=
  kernelFilter 3 [-1, -1, -1, -1, 10, -1, -1, -1, -1] 2 0 img

/-- Modelled from the spec: the PIL SHARPEN filter constants. -/
def filterSHARPEN (img : PImage) : PImage :=
  kernelFilter 3 [-2, -2, -2, -2, 32, -2, -2, -2, -2] 16 0 img

/-- Modelled from the spec: the PIL SMOOTH filter constants. -/
def filterSMOOTH (img : PImage) : PImage :=
  kernelFilter 3 [1, 1, 1, 1, 5, 1, 1, 1, 1] 13 0 img

/-- Modelled from the spec: the PIL EMBOSS filter constants. -/
def filterEMBOSS (img : PImage) : PImage :=
  kernelFilter 3 [-1, 0, 0, 0, 1, 0, 0, 0, 0] 1 128 img

/-- Modelled from the spec: the PIL FIND_EDGES filter constants. -/
def filterFIND_EDGES (img : PImage) : PImage :=
  kernelFilter 3 [-1, -1, -1, -1, 8, -1, -1, -1, -1] 1 0 img

/-- apply_selected_filter from app.py: the if chain over the filter name; any
other name, Original included, returns the image unchanged. -/
def apply_selected_filter (img : PImage) (filter_name : String) : PImage :=
  if filter_name = "Blur" then filterBLUR img
  else if filter_name = "Contour" then filterCONTOUR img
  else if filter_name = "Detail" then filterDETAIL img
  else if filter_name = "Edge Enhance" then filterEDGE_ENHANCE img
  else if filter_name = "Sharpen" then filterSHARPEN img
  else if filter_name = "Smooth" then filterSMOOTH img
  else if filter_name = "Emboss" then filterEMBOSS img
  else if filter_name = "Find Edges" then filterFIND_EDGES img
  else img

/-- Modelled from the spec: rotation by a multiple of 90 degrees
counterclockwise with the canvas expanded to fit; non-multiples do not arise
from the slider. -/
def rotateExpand (img : PImage) (angle : ℤ) : PImage :=
  let a := angle.emod 360
  if a = 90 then
    { width := img.height, height := img.width,
      pix := fun x y => img.pix (img.width - 1 - y) x }
  else if a = 180 then
    { width := img.width, height := img.height,
      pix := fun x y => img.pix (img.width - 1 - x) (img.height - 1 - y) }
  else if a = 270 then
    { width := img.height, height := img.width,
      pix := fun x y => img.pix y (img.height - 1 - x) }
  else img

/-- Modelled from the spec: ImageOps.mirror, the left-right flip. -/
def mirrorImage (img : PImage) : PImage :=
  { width := img.width, height := img.height,
    pix := fun x y => img.pix (img.width - 1 - x) y }

/-- Modelled from the spec: ImageOps.flip, the top-bottom flip. -/
def flipImage (img : PImage) : PImage :=
  { width := img.width, height := img.height,
    pix := fun x y => img.pix x (img.height - 1 - y) }

/-- process_image from app.py: filter, then the three enhancement stages,
then rotation when the angle is nonzero, then the optional mirror and
flip. -/
def process_image (img : PImage) (filter_choice : String) (brightness color contrast : ℚ)
    (rotate_angle : ℤ) (mirror_h mirror_v : Bool) : PImage :=
  let p1 := apply_selected_filter img filter_choice
  let p2 := enhanceBrightness p1 brightness
  let p3 := enhanceColor p2 color
  let p4 := enhanceContrast p3 contrast
  let p5 := if rotate_angle ≠ 0 then rotateExpand p4 rotate_angle else p4
  let p6 := if mirror_h then mirrorImage p5 else p5
  if mirror_v then flipImage p6 else p6

/-- Two images agree: same dimensions and the same pixels inside them. -/
def imageEq (a b : PImage) : Prop :=
  a.width = b.width ∧ a.height = b.height ∧
    ∀ x, x < b.width → ∀ y, y < b.height → a.pix x y = b.pix x y

/- Concrete inputs used by witnesses and counterexamples. -/

/-- A rect edit shape sitting half a cell to the left of the canvas: its
exact column is -1/2. -/
def negRect : CanvasObj :=
  { type := "rect", left := -32, top := 0, width := 64, height := 64,
    fill := "#ff0000", stroke := "#DDDDDD", strokeWidth := 1,
    selectable := false, evented := false }

/-- The worked example of the spec: one red rect at pixel position (32, 32)
with cell size 32 on a 16 by 16 canvas. -/
def demoRect : CanvasObj :=
  { type := "rect", left := 32, top := 32, width := 32, height := 32,
    fill := "#ff0000", stroke := "#DDDDDD", strokeWidth := 1,
    selectable := false, evented := false }

/-- A rect edit shape whose fill string is not a hex color. -/
def badRect : CanvasObj :=
  { type := "rect", left := 32, top := 32, width := 32, height := 32,
    fill := "red", stroke := "#DDDDDD", strokeWidth := 1,
    selectable := false, evented := false }

/-- A non-rect record carrying a malformed fill string. -/
def circBad : CanvasObj :=
  { type := "circle", left := 32, top := 32, width := 32, height := 32,
    fill := "???", stroke := "#DDDDDD", strokeWidth := 1,
    selectable := false, evented := false }

/-- A second rect at the same canvas cell as demoRect, filled green. -/
def demoRect2 : CanvasObj :=
  { type := "rect", left := 32, top := 32, width := 32, height := 32,
    fill := "#00ff00", stroke := "#DDDDDD", strokeWidth := 1,
    selectable := false, evented := false }

/-- The grid produced by reducing demoRect then demoRect2 on a 16 canvas. -/
def gWitness : Grid := setCell (setCell (whiteGrid 16) 1 1 (255, 0, 0)) 1 1 (0, 255, 0)

/-- A small concrete non-constant image. -/
def demoImg : PImage :=
  { width := 3, height := 2, pix := fun x y => (10 * x + y, 100, x + 3 * y) }

/-- A small concrete solid-color image. -/
def solidDemoImg : PImage := solidImage 3 2 (10, 20, 30)

/-- A 12 by 12 grid whose cell at row 0, column 7 is red: the column whose
binary64 round trip collapses onto column 6 at size 12. -/
def grid12 : Grid := setCell (whiteGrid 12) 0 7 (255, 0, 0)

/- Auxiliary lemmas about grids. -/

theorem getD_eq_get {α : Type} (l : List α) (d : α) {i : ℕ} (h : i < l.length) :
    l.getD i d = l.get ⟨i, h⟩ := by
  simp [List.getD_eq_getElem?_getD, List.getElem?_eq_getElem h]

theorem setCell_out_of_range {g : Grid} {y : ℕ} (h : g.length ≤ y) (x : ℕ) (c : Color) :
    setCell g y x c = g := by
  simp [setCell, List.set_eq_of_length_le h]

theorem gridDims_setCell {n : ℕ} {g : Grid} (h : gridDims n g) (y x : ℕ) (c : Color) :
    gridDims n (setCell g y x c) := by
  by_cases hy : y < g.length
  · obtain ⟨hlen, hrows⟩ := h
    refine ⟨by simp [setCell, hlen], ?_⟩
    intro row hrow
    rcases List.mem_or_eq_of_mem_set hrow with hmem | heq
    · exact hrows row hmem
    · subst heq
      rw [List.length_set, getD_eq_get g [] hy]
      exact hrows _ (List.get_mem g y hy)
  · rw [setCell_out_of_range (by omega) x c]
    exact h

theorem gridValid_setCell {n : ℕ} {g : Grid} (h : gridValid n g) {c : Color}
    (hc : colorValid c) (y x : ℕ) : gridValid n (setCell g y x c) := by
  by_cases hy : y < g.length
  · obtain ⟨hdims, hcells⟩ := h
    refine ⟨gridDims_setCell hdims y x c, ?_⟩
    intro row hrow
    rcases List.mem_or_eq_of_mem_set hrow with hmem | heq
    · exact hcells row hmem
    · subst heq
      intro cc hcc
      rcases List.mem_or_eq_of_mem_set hcc with hmem2 | heq2
      · refine hcells _ ?_ cc hmem2
        rw [getD_eq_get g [] hy]
        exact List.get_mem g y hy
      · subst heq2
        exact hc
  · rw [setCell_out_of_range (by omega) x c]
    exact h

theorem getCell_setCell_same {g : Grid} {y x : ℕ} (hy : y < g.length)
    (hx : x < (g.getD y []).length) (c : Color) :
    getCell (setCell g y x c) y x = c := by
  unfold getCell setCell
  rw [List.getD_eq_getElem?_getD (List.set g y ((g.getD y []).set x c)) y [],
    List.getElem?_set_self hy, Option.getD_some,
    List.getD_eq_getElem?_getD, List.getElem?_set_self hx, Option.getD_some]

theorem getCell_setCell_ne {g : Grid} {y x y2 x2 : ℕ} (h : y2 ≠ y ∨ x2 ≠ x) (c : Color) :
    getCell (setCell g y x c) y2 x2 = getCell g y2 x2 := by
  by_cases hyy : y2 = y
  · subst hyy
    have hx2 : x ≠ x2 := by tauto
    by_cases hy : y2 < g.length
    · unfold getCell setCell
      rw [List.getD_eq_getElem?_getD (List.set g y2 ((g.getD y2 []).set x c)) y2 [],
        List.getElem?_set_self hy, Option.getD_some,
        List.getD_eq_getElem?_getD, List.getElem?_set_ne hx2,
        ← List.getD_eq_getElem?_getD]
    · rw [setCell_out_of_range (by omega) x c]
  · unfold getCell setCell
    rw [List.getD_eq_getElem?_getD (List.set g y ((g.getD y []).set x c)) y2 [],
      List.getElem?_set_ne (fun hh => hyy hh.symm),
      ← List.getD_eq_getElem?_getD]

theorem getCell_valid {n : ℕ} {g : Grid} (h : gridValid n g) {y x : ℕ}
    (hy : y < n) (hx : x < n) : colorValid (getCell g y x) := by
  obtain ⟨⟨hlen, hrows⟩, hcells⟩ := h
  have hy2 : y < g.length := by omega
  have hrow : g.get ⟨y, hy2⟩ ∈ g := List.get_mem g y hy2
  have hrl : (g.get ⟨y, hy2⟩).length = n := hrows _ hrow
  rw [getCell, getD_eq_get g [] hy2, getD_eq_get _ _ (by omega)]
  exact hcells _ hrow _ (List.get_mem _ x _)

theorem grid_ext (n : ℕ) {a b : Grid} (ha : gridDims n a) (hb : gridDims n b)
    (h : ∀ y, y < n → ∀ x, x < n → getCell a y x = getCell b y x) : a = b := by
  obtain ⟨hal, har⟩ := ha
  obtain ⟨hbl, hbr⟩ := hb
  apply List.ext_getElem (by omega)
  intro y hy1 hy2
  have hrowa : a[y].length = n := har _ (List.getElem_mem hy1)
  have hrowb : b[y].length = n := hbr _ (List.getElem_mem hy2)
  apply List.ext_getElem (by omega)
  intro x hx1 hx2
  have hcell := h y (by omega) x (by omega)
  rw [getCell, getCell, getD_eq_get a [] hy1, getD_eq_get b [] hy2,
    getD_eq_get _ _ (by simpa using hx1), getD_eq_get _ _ (by simpa using hx2)] at hcell
  simpa using hcell

theorem whiteGrid_dims (n : ℕ) : gridDims n (whiteGrid n) := by
  refine ⟨by simp [whiteGrid], ?_⟩
  intro row hrow
  rw [List.eq_of_mem_replicate hrow]
  simp

theorem whiteGrid_valid (n : ℕ) : gridValid n (whiteGrid n) := by
  refine ⟨whiteGrid_dims n, ?_⟩
  intro row hrow c hc
  rw [List.eq_of_mem_replicate hrow] at hc
  rw [List.eq_of_mem_replicate hc]
  exact ⟨by norm_num [white], by norm_num [white], by norm_num [white]⟩

/- Auxiliary lemmas about the hexadecimal color strings. -/

theorem hexDigitVal_le {c : Char} {d : ℕ} (h : hexDigitVal c = some d) : d ≤ 15 := by
  unfold hexDigitVal at h
  split_ifs at h <;> simp_all <;> omega

theorem parseHexDigitsAux_lt :
    ∀ (cs : List Char) (acc : ℕ) (flag : Bool) (v : ℕ),
      parseHexDigitsAux acc flag cs = some v → v < (acc + 1) * 16 ^ cs.length := by
  intro cs
  induction cs with
  | nil =>
    intro acc flag v h
    rw [parseHexDigitsAux] at h
    split at h
    · simp only [Option.some.injEq] at h
      simp only [List.length_nil, pow_zero, mul_one]
      omega
    · simp at h
  | cons c cs ih =>
    intro acc flag v h
    rw [parseHexDigitsAux] at h
    split at h
    · next d hd =>
      have hb := ih (16 * acc + d) true v h
      have hd15 := hexDigitVal_le hd
      calc v < (16 * acc + d + 1) * 16 ^ cs.length := hb
        _ ≤ ((acc + 1) * 16) * 16 ^ cs.length := Nat.mul_le_mul (by omega) (le_refl _)
        _ = (acc + 1) * 16 ^ (c :: cs).length := by
            rw [List.length_cons]
            ring
    · next hd =>
      split at h
      · have hb := ih acc false v h
        calc v < (acc + 1) * 16 ^ cs.length := hb
          _ ≤ (acc + 1) * 16 ^ (c :: cs).length := by
              refine Nat.mul_le_mul (le_refl _) ?_
              refine Nat.pow_le_pow_right (by omega) ?_
              rw [List.length_cons]
              omega
      · simp at h

theorem parseHexBody_lt (cs : List Char) (v : ℕ) (h : parseHexBody cs = some v) :
    v < 16 ^ cs.length := by
  have step : ∀ (ds : List Char), parseHexDigitsAux 0 false ds = some v →
      ds.length ≤ cs.length → v < 16 ^ cs.length := by
    intro ds hds hlen
    have hb := parseHexDigitsAux_lt ds 0 false v hds
    calc v < (0 + 1) * 16 ^ ds.length := hb
      _ = 16 ^ ds.length := by ring
      _ ≤ 16 ^ cs.length := Nat.pow_le_pow_right (by omega) hlen
  rcases cs with _ | ⟨c0, _ | ⟨c1, rest⟩⟩
  · exact step _ h (le_refl _)
  · exact step _ h (le_refl _)
  · rw [parseHexBody] at h
    split_ifs at h
    · refine step _ h ?_
      rw [List.length_tail]
      simp only [List.length_cons]
      omega
    · refine step _ h ?_
      simp only [List.length_cons]
      omega
    · exact step _ h (le_refl _)

theorem pyStrip_length_le (cs : List Char) : (pyStrip cs).length ≤ cs.length := by
  unfold pyStrip
  rw [List.length_reverse]
  refine le_trans (List.Sublist.length_le (List.dropWhile_sublist _)) ?_
  rw [List.length_reverse]
  exact List.Sublist.length_le (List.dropWhile_sublist _)

theorem parseIntHex_lt (cs : List Char) (v : ℤ) (h : parseIntHex cs = some v) :
    v < (16 : ℤ) ^ cs.length := by
  have hstrip := pyStrip_length_le cs
  have htail : (pyStrip cs).tail.length ≤ cs.length := by
    rw [List.length_tail]
    omega
  have hpow : ∀ k : ℕ, k ≤ cs.length → ((16 : ℤ)) ^ k ≤ (16 : ℤ) ^ cs.length := by
    intro k hk
    exact_mod_cast Nat.pow_le_pow_right (show 1 ≤ 16 by omega) hk
  unfold parseIntHex at h
  split_ifs at h
  · rcases hpb : parseHexBody (pyStrip cs).tail with _ | w <;> rw [hpb] at h
    · simp at h
    · simp only [Option.map_some', Option.some.injEq] at h
      have hb := parseHexBody_lt _ _ hpb
      have h1 := hpow _ htail
      have hbz : (w : ℤ) < (16 : ℤ) ^ (pyStrip cs).tail.length := by exact_mod_cast hb
      omega
  · rcases hpb : parseHexBody (pyStrip cs).tail with _ | w <;> rw [hpb] at h
    · simp at h
    · simp only [Option.map_some', Option.some.injEq] at h
      have hpos : (0 : ℤ) < (16 : ℤ) ^ cs.length := pow_pos (by norm_num) _
      have hwn : (0 : ℤ) ≤ (w : ℤ) := Int.natCast_nonneg w
      omega
  · rcases hpb : parseHexBody (pyStrip cs) with _ | w <;> rw [hpb] at h
    · simp at h
    · simp only [Option.map_some', Option.some.injEq] at h
      have hb := parseHexBody_lt _ _ hpb
      have h1 := hpow _ hstrip
      have hbz : (w : ℤ) < (16 : ℤ) ^ (pyStrip cs).length := by exact_mod_cast hb
      omega

theorem parseFillAt_le {cs : List Char} {i : ℕ} {v : ℤ}
    (h : parseFillAt cs i = some v) : v ≤ 255 := by
  have hb := parseIntHex_lt _ _ h
  have hlen : ((cs.drop i).take 2).length ≤ 2 := by
    rw [List.length_take]
    exact min_le_left _ _
  have hle : (16 : ℤ) ^ ((cs.drop i).take 2).length ≤ (16 : ℤ) ^ 2 := by
    exact_mod_cast Nat.pow_le_pow_right (show 1 ≤ 16 by omega) hlen
  have h256 : ((16 : ℤ) ^ 2 : ℤ) = 256 := by norm_num
  rw [h256] at hle
  omega

theorem parseFill_valid {s : String} {c : Color} (h : parseFill s = some c) :
    colorValid c := by
  unfold parseFill at h
  rcases h1 : parseFillAt s.toList 1 with _ | r <;> rw [h1] at h
  · simp at h
  · rcases h2 : parseFillAt s.toList 3 with _ | g <;> rw [h2] at h
    · simp at h
    · rcases h3 : parseFillAt s.toList 5 with _ | b <;> rw [h3] at h
      · simp at h
      · have hr := parseFillAt_le h1
        have hg := parseFillAt_le h2
        have hb := parseFillAt_le h3
        replace h :
            (if 0 ≤ r ∧ 0 ≤ g ∧ 0 ≤ b then
                some (r.toNat, g.toNat, b.toNat) else (none : Option Color)) =
              some c := h
        split_ifs at h with hpos
        · obtain ⟨hr0, hg0, hb0⟩ := hpos
          simp only [Option.some.injEq] at h
          subst h
          refine ⟨?_, ?_, ?_⟩
          · show r.toNat ≤ 255
            omega
          · show g.toNat ≤ 255
            omega
          · show b.toNat ≤ 255
            omega

set_option maxRecDepth 4000 in
theorem hex2_digits_fin : ∀ n : Fin 256,
    (hex2 n.val).toList = [Nat.digitChar (n.val / 16), Nat.digitChar (n.val % 16)] := by
  decide

theorem hex2_digits {n : ℕ} (h : n < 256) :
    (hex2 n).toList = [Nat.digitChar (n / 16), Nat.digitChar (n % 16)] :=
  hex2_digits_fin ⟨n, h⟩

set_option maxRecDepth 4000 in
theorem parseIntHex_digitChar_fin : ∀ d1 d2 : Fin 16,
    parseIntHex [Nat.digitChar d1.val, Nat.digitChar d2.val] =
      some ((16 * d1.val + d2.val : ℕ) : ℤ) := by decide

theorem parseIntHex_digitChar_pair {d1 d2 : ℕ} (h1 : d1 < 16) (h2 : d2 < 16) :
    parseIntHex [Nat.digitChar d1, Nat.digitChar d2] =
      some ((16 * d1 + d2 : ℕ) : ℤ) :=
  parseIntHex_digitChar_fin ⟨d1, h1⟩ ⟨d2, h2⟩

theorem toList_rgb_to_hex {r g b : ℕ} (h1 : r ≤ 255) (h2 : g ≤ 255) (h3 : b ≤ 255) :
    (rgb_to_hex (r, g, b)).toList =
      ['#', Nat.digitChar (r / 16), Nat.digitChar (r % 16),
        Nat.digitChar (g / 16), Nat.digitChar (g % 16),
        Nat.digitChar (b / 16), Nat.digitChar (b % 16)] := by
  have e1 := hex2_digits (show r < 256 by omega)
  have e2 := hex2_digits (show g < 256 by omega)
  have e3 := hex2_digits (show b < 256 by omega)
  have hh : ("#" : String).data = ['#'] := rfl
  rw [rgb_to_hex]
  simp only [String.toList] at e1 e2 e3 ⊢
  simp [String.data_append, hh, e1, e2, e3]

theorem parseFillAt_seven_1 (c0 a1 a2 a3 a4 a5 a6 : Char) :
    parseFillAt [c0, a1, a2, a3, a4, a5, a6] 1 = parseIntHex [a1, a2] := rfl

theorem parseFillAt_seven_3 (c0 a1 a2 a3 a4 a5 a6 : Char) :
    parseFillAt [c0, a1, a2, a3, a4, a5, a6] 3 = parseIntHex [a3, a4] := rfl

theorem parseFillAt_seven_5 (c0 a1 a2 a3 a4 a5 a6 : Char) :
    parseFillAt [c0, a1, a2, a3, a4, a5, a6] 5 = parseIntHex [a5, a6] := rfl

theorem parseFill_rgb_to_hex {c : Color} (h : colorValid c) :
    parseFill (rgb_to_hex c) = some c := by
  obtain ⟨r, g, b⟩ := c
  obtain ⟨h1, h2, h3⟩ := h
  unfold parseFill
  rw [toList_rgb_to_hex h1 h2 h3, parseFillAt_seven_1, parseFillAt_seven_3,
    parseFillAt_seven_5,
    parseIntHex_digitChar_pair (by omega) (by omega),
    parseIntHex_digitChar_pair (by omega) (by omega),
    parseIntHex_digitChar_pair (by omega) (by omega),
    Nat.div_add_mod, Nat.div_add_mod, Nat.div_add_mod]
  simp [Int.toNat_natCast, Int.natCast_nonneg]

/-- Witnesses for the sign, whitespace and negative-component behavior of
the modelled parser: int(s, 16) accepts signed and space-padded slices, a
negative component is rejected at the uint8 conversion, and a non-hex
slice is rejected by int itself. -/
theorem parseFill_sign_examples :
    parseFill "#+1+2+3" = some (1, 2, 3) ∧ parseFill "# a b c" = some (10, 11, 12) ∧
      parseFill "#-1-2-3" = none ∧ parseFill "red" = none := by decide

/- Auxiliary lemmas about truncation and the reduction loop. -/

theorem ratTrunc_natCast (n : ℕ) : ratTrunc (n : ℚ) = n := by
  rw [ratTrunc, if_pos (by positivity)]
  exact Int.floor_natCast n

theorem applyObj_not_rect {N : ℕ} {p : ℚ} {g : Grid} {obj : CanvasObj}
    (h : obj.type ≠ "rect") : applyObj N p g obj = Except.ok g := by
  simp [applyObj, h]

theorem applyObj_bad_fill {N : ℕ} {p : ℚ} {g : Grid} {obj : CanvasObj}
    (ht : obj.type = "rect") (hf : parseFill obj.fill = none) :
    applyObj N p g obj = Except.error "FormatError" := by
  simp [applyObj, ht, hf]

theorem applyObj_rect {N : ℕ} {p : ℚ} {g : Grid} {obj : CanvasObj} {c : Color}
    (ht : obj.type = "rect") (hc : parseFill obj.fill = some c) :
    applyObj N p g obj =
      if (0 ≤ ratTrunc (obj.top / p) ∧ ratTrunc (obj.top / p) < (N : ℤ)) ∧
          (0 ≤ ratTrunc (obj.left / p) ∧ ratTrunc (obj.left / p) < (N : ℤ)) then
        Except.ok (setCell g (ratTrunc (obj.top / p)).toNat (ratTrunc (obj.left / p)).toNat c)
      else Except.ok g := by
  simp [applyObj, ht, hc]

theorem applyObj_error {N : ℕ} {p : ℚ} {g : Grid} {obj : CanvasObj} {e : String}
    (h : applyObj N p g obj = Except.error e) : e = "FormatError" := by
  by_cases ht : obj.type = "rect"
  · rcases hf : parseFill obj.fill with _ | c
    · rw [applyObj_bad_fill ht hf] at h
      exact (Except.error.injEq _ _ ▸ h.symm).symm ▸ rfl
    · rw [applyObj_rect ht hf] at h
      split at h <;> simp at h
  · rw [applyObj_not_rect ht] at h
    simp at h

theorem applyObjF_rect {N : ℕ} {p : ℚ} {g : Grid} {obj : CanvasObj} {c : Color}
    (ht : obj.type = "rect") (hc : parseFill obj.fill = some c) :
    applyObjF N p g obj =
      if (0 ≤ ratTrunc (roundB64 (obj.top / p)) ∧
            ratTrunc (roundB64 (obj.top / p)) < (N : ℤ)) ∧
          (0 ≤ ratTrunc (roundB64 (obj.left / p)) ∧
            ratTrunc (roundB64 (obj.left / p)) < (N : ℤ)) then
        Except.ok (setCell g (ratTrunc (roundB64 (obj.top / p))).toNat
          (ratTrunc (roundB64 (obj.left / p))).toNat c)
      else Except.ok g := by
  simp [applyObjF, ht, hc]

theorem applyObjF_cellRectF {N : ℕ} {p : ℚ} {gsrc : Grid} {y x : ℕ}
    (hy : y < N) (hx : x < N)
    (hxid : ratTrunc (roundB64 (roundB64 ((x : ℚ) * p) / p)) = (x : ℤ))
    (hyid : ratTrunc (roundB64 (roundB64 ((y : ℚ) * p) / p)) = (y : ℤ))
    (hc : colorValid (getCell gsrc y x)) (g : Grid) :
    applyObjF N p g (cellRectF p gsrc y x) =
      Except.ok (setCell g y x (getCell gsrc y x)) := by
  have hparse := parseFill_rgb_to_hex hc
  rw [@applyObjF_rect N p g (cellRectF p gsrc y x) (getCell gsrc y x) rfl hparse]
  rw [show (cellRectF p gsrc y x).left = roundB64 ((x : ℚ) * p) from rfl,
    show (cellRectF p gsrc y x).top = roundB64 ((y : ℚ) * p) from rfl, hxid, hyid]
  rw [if_pos ⟨⟨by positivity, by exact_mod_cast hy⟩, ⟨by positivity, by exact_mod_cast hx⟩⟩]
  rw [Int.toNat_natCast, Int.toNat_natCast]

theorem reduceLoop_append (N : ℕ) (p : ℚ) (l1 l2 : List CanvasObj) :
    ∀ g, reduceLoop N p g (l1 ++ l2) =
      match reduceLoop N p g l1 with
      | Except.ok g2 => reduceLoop N p g2 l2
      | Except.error e => Except.error e := by
  induction l1 with
  | nil => intro g; rfl
  | cons o rest ih =>
    intro g
    rw [List.cons_append, reduceLoop, reduceLoop]
    cases applyObj N p g o with
    | ok g2 => exact ih g2
    | error e => rfl

theorem reduceLoopF_writeCells {N : ℕ} {p : ℚ} {gsrc : Grid}
    (hvalid : gridValid N gsrc)
    (hid : ∀ z : ℕ, z < N → ratTrunc (roundB64 (roundB64 ((z : ℚ) * p) / p)) = (z : ℤ)) :
    ∀ (ps : List (ℕ × ℕ)), (∀ yx ∈ ps, yx.1 < N ∧ yx.2 < N) → ∀ (g0 : Grid),
      reduceLoopF N p g0 (ps.map (fun yx => cellRectF p gsrc yx.1 yx.2)) =
        Except.ok (writeCells gsrc g0 ps) := by
  intro ps
  induction ps with
  | nil => intro _ g0; rfl
  | cons yx rest ih =>
    intro hb g0
    obtain ⟨hy, hx⟩ := hb yx (List.mem_cons_self yx rest)
    have hc : colorValid (getCell gsrc yx.1 yx.2) := getCell_valid hvalid hy hx
    rw [List.map_cons, reduceLoopF,
      applyObjF_cellRectF hy hx (hid _ hx) (hid _ hy) hc g0]
    exact ih (fun a ha => hb a (List.mem_cons_of_mem _ ha)) _

theorem gridDims_writeCells {n : ℕ} {gsrc : Grid} :
    ∀ (ps : List (ℕ × ℕ)) {g0 : Grid}, gridDims n g0 → gridDims n (writeCells gsrc g0 ps) := by
  intro ps
  induction ps with
  | nil => intro g0 h; exact h
  | cons yx rest ih =>
    intro g0 h
    exact ih (gridDims_setCell h yx.1 yx.2 _)

theorem gridValid_writeCells {n : ℕ} {gsrc : Grid} (hsrc : gridValid n gsrc) :
    ∀ (ps : List (ℕ × ℕ)), (∀ yx ∈ ps, yx.1 < n ∧ yx.2 < n) →
      ∀ {g0 : Grid}, gridValid n g0 → gridValid n (writeCells gsrc g0 ps) := by
  intro ps
  induction ps with
  | nil => intro _ g0 h; exact h
  | cons yx rest ih =>
    intro hb g0 h
    obtain ⟨hy, hx⟩ := hb yx (List.mem_cons_self yx rest)
    exact ih (fun a ha => hb a (List.mem_cons_of_mem _ ha))
      (gridValid_setCell h (getCell_valid hsrc hy hx) yx.1 yx.2)

theorem getCell_writeCells_not_mem {gsrc : Grid} :
    ∀ (ps : List (ℕ × ℕ)) (g0 : Grid) {y x : ℕ}, (y, x) ∉ ps →
      getCell (writeCells gsrc g0 ps) y x = getCell g0 y x := by
  intro ps
  induction ps with
  | nil => intro g0 y x _; rfl
  | cons ab rest ih =>
    intro g0 y x hnm
    have hne : y ≠ ab.1 ∨ x ≠ ab.2 := by
      by_contra hcon
      push_neg at hcon
      exact hnm (by
        obtain ⟨e1, e2⟩ := hcon
        have : (y, x) = ab := Prod.ext e1 e2
        rw [this]
        exact List.mem_cons_self ab rest)
    rw [writeCells, List.foldl_cons]
    rw [show List.foldl (fun g yx => setCell g yx.1 yx.2 (getCell gsrc yx.1 yx.2))
        (setCell g0 ab.1 ab.2 (getCell gsrc ab.1 ab.2)) rest =
        writeCells gsrc (setCell g0 ab.1 ab.2 (getCell gsrc ab.1 ab.2)) rest from rfl]
    rw [ih _ (fun hmem => hnm (List.mem_cons_of_mem _ hmem))]
    exact getCell_setCell_ne hne _

theorem getCell_writeCells_mem {n : ℕ} {gsrc : Grid} :
    ∀ (ps : List (ℕ × ℕ)) (g0 : Grid), gridDims n g0 →
      (∀ yx ∈ ps, yx.1 < n ∧ yx.2 < n) → ∀ {y x : ℕ}, (y, x) ∈ ps →
      getCell (writeCells gsrc g0 ps) y x = getCell gsrc y x := by
  intro ps
  induction ps with
  | nil => intro g0 _ _ y x hmem; simp at hmem
  | cons ab rest ih =>
    intro g0 hdims hb y x hmem
    have hstep : gridDims n (setCell g0 ab.1 ab.2 (getCell gsrc ab.1 ab.2)) :=
      gridDims_setCell hdims ab.1 ab.2 _
    rw [writeCells, List.foldl_cons]
    rw [show List.foldl (fun g yx => setCell g yx.1 yx.2 (getCell gsrc yx.1 yx.2))
        (setCell g0 ab.1 ab.2 (getCell gsrc ab.1 ab.2)) rest =
        writeCells gsrc (setCell g0 ab.1 ab.2 (getCell gsrc ab.1 ab.2)) rest from rfl]
    by_cases hrest : (y, x) ∈ rest
    · exact ih _ hstep (fun a ha => hb a (List.mem_cons_of_mem _ ha)) hrest
    · have heq : (y, x) = ab := by
        rcases List.mem_cons.mp hmem with h | h
        · exact h
        · exact absurd h hrest
      obtain ⟨hy, hx⟩ := hb ab (List.mem_cons_self ab rest)
      rw [getCell_writeCells_not_mem rest _ hrest]
      rw [← heq] at hy hx ⊢
      have hylen : y < g0.length := by omega
      have hrowlen : (g0.getD y []).length = n := by
        rw [getD_eq_get g0 [] hylen]
        exact hdims.2 _ (List.get_mem g0 y hylen)
      exact getCell_setCell_same hylen (by omega) _

theorem objects_eq_pairsF (g : Grid) (D : ℚ) :
    (create_initial_drawing_json_fl g D).objects =
      (pairsList g.length).map
        (fun yx => cellRectF (roundB64 (D / (g.length : ℚ))) g yx.1 yx.2) := by
  unfold create_initial_drawing_json_fl pairsList
  rw [List.map_flatMap]
  simp only [List.map_map]
  rfl

theorem mem_pairsList {n y x : ℕ} : (y, x) ∈ pairsList n ↔ y < n ∧ x < n := by
  simp [pairsList, List.mem_flatMap, List.mem_range, List.mem_map]

theorem reduceShapesF_round_trip_of_id (N : ℕ) (g : Grid) (hg : gridValid N g)
    (hid : ∀ z : ℕ, z < N →
      ratTrunc (roundB64 (roundB64 ((z : ℚ) * roundB64 ((512 : ℚ) / (N : ℚ))) /
        roundB64 ((512 : ℚ) / (N : ℚ)))) = (z : ℤ)) :
    reduceShapesF N 512 (create_initial_drawing_json_fl g 512).objects = Except.ok g := by
  have hlen : g.length = N := hg.1.1
  have hbounds : ∀ yx ∈ pairsList N, yx.1 < N ∧ yx.2 < N := by
    intro yx hyx
    obtain ⟨a, b⟩ := yx
    exact mem_pairsList.mp hyx
  rw [reduceShapesF, objects_eq_pairsF, hlen,
    reduceLoopF_writeCells hg hid (pairsList N) hbounds (whiteGrid N)]
  congr 1
  refine grid_ext N (gridDims_writeCells _ (whiteGrid_dims N)) hg.1 ?_
  intro y hy x hx
  exact getCell_writeCells_mem (pairsList N) (whiteGrid N) (whiteGrid_dims N) hbounds
    (mem_pairsList.mpr ⟨hy, hx⟩)

/- For each size the composite map index to canvas position to index is
checked against the binary64 arithmetic itself: it is the identity for
sizes 8, 16, 20, 28, 32, 40 and 64, and fails for the other supported
sizes. -/

set_option maxRecDepth 8000 in
unseal Rat.mul Rat.inv in
theorem truncId8 : ∀ z : Fin 8,
    ratTrunc (roundB64 (roundB64 ((z.val : ℚ) * roundB64 ((512 : ℚ) / ((8 : ℕ) : ℚ))) /
      roundB64 ((512 : ℚ) / ((8 : ℕ) : ℚ)))) = (z.val : ℤ) := by decide

set_option maxRecDepth 8000 in
unseal Rat.mul Rat.inv in
theorem truncId16 : ∀ z : Fin 16,
    ratTrunc (roundB64 (roundB64 ((z.val : ℚ) * roundB64 ((512 : ℚ) / ((16 : ℕ) : ℚ))) /
      roundB64 ((512 : ℚ) / ((16 : ℕ) : ℚ)))) = (z.val : ℤ) := by decide

set_option maxRecDepth 8000 in
unseal Rat.mul Rat.inv in
theorem truncId20 : ∀ z : Fin 20,
    ratTrunc (roundB64 (roundB64 ((z.val : ℚ) * roundB64 ((512 : ℚ) / ((20 : ℕ) : ℚ))) /
      roundB64 ((512 : ℚ) / ((20 : ℕ) : ℚ)))) = (z.val : ℤ) := by decide

set_option maxRecDepth 8000 in
unseal Rat.mul Rat.inv in
theorem truncId28 : ∀ z : Fin 28,
    ratTrunc (roundB64 (roundB64 ((z.val : ℚ) * roundB64 ((512 : ℚ) / ((28 : ℕ) : ℚ))) /
      roundB64 ((512 : ℚ) / ((28 : ℕ) : ℚ)))) = (z.val : ℤ) := by decide

set_option maxRecDepth 8000 in
unseal Rat.mul Rat.inv in
theorem truncId32 : ∀ z : Fin 32,
    ratTrunc (roundB64 (roundB64 ((z.val : ℚ) * roundB64 ((512 : ℚ) / ((32 : ℕ) : ℚ))) /
      roundB64 ((512 : ℚ) / ((32 : ℕ) : ℚ)))) = (z.val : ℤ) := by decide

set_option maxRecDepth 8000 in
unseal Rat.mul Rat.inv in
theorem truncId40 : ∀ z : Fin 40,
    ratTrunc (roundB64 (roundB64 ((z.val : ℚ) * roundB64 ((512 : ℚ) / ((40 : ℕ) : ℚ))) /
      roundB64 ((512 : ℚ) / ((40 : ℕ) : ℚ)))) = (z.val : ℤ) := by decide

set_option maxRecDepth 8000 in
unseal Rat.mul Rat.inv in
theorem truncId64 : ∀ z : Fin 64,
    ratTrunc (roundB64 (roundB64 ((z.val : ℚ) * roundB64 ((512 : ℚ) / ((64 : ℕ) : ℚ))) /
      roundB64 ((512 : ℚ) / ((64 : ℕ) : ℚ)))) = (z.val : ℤ) := by decide

set_option maxRecDepth 1000000 in
unseal Rat.mul Rat.inv in
theorem truncId_filter :
    ([8, 12, 16, 20, 24, 28, 32, 36, 40, 44, 48, 52, 56, 60, 64] : List ℕ).filter
      (fun N => (List.range N).all (fun z =>
        ratTrunc (roundB64 (roundB64 ((z : ℚ) * roundB64 ((512 : ℚ) / (N : ℚ))) /
          roundB64 ((512 : ℚ) / (N : ℚ)))) == (z : ℤ))) =
      [8, 16, 20, 28, 32, 40, 64] := by decide

/-- C1 (corrected): for the supported sizes 8, 16, 20, 28, 32, 40 and 64,
the only ones where every scaled index survives the binary64 coordinate
arithmetic, projecting an N by N grid of RGB triples to shapes with
display dimension 512 and reducing the shape list back yields exactly the
original grid. -/
theorem projection_round_trip_float (N : ℕ)
    (hN : N = 8 ∨ N = 16 ∨ N = 20 ∨ N = 28 ∨ N = 32 ∨ N = 40 ∨ N = 64)
    (g : Grid) (hg : gridValid N g) :
    reduceShapesF N 512 (create_initial_drawing_json_fl g 512).objects = Except.ok g := by
  rcases hN with rfl | rfl | rfl | rfl | rfl | rfl | rfl
  · exact reduceShapesF_round_trip_of_id 8 g hg (fun z hz => truncId8 ⟨z, hz⟩)
  · exact reduceShapesF_round_trip_of_id 16 g hg (fun z hz => truncId16 ⟨z, hz⟩)
  · exact reduceShapesF_round_trip_of_id 20 g hg (fun z hz => truncId20 ⟨z, hz⟩)
  · exact reduceShapesF_round_trip_of_id 28 g hg (fun z hz => truncId28 ⟨z, hz⟩)
  · exact reduceShapesF_round_trip_of_id 32 g hg (fun z hz => truncId32 ⟨z, hz⟩)
  · exact reduceShapesF_round_trip_of_id 40 g hg (fun z hz => truncId40 ⟨z, hz⟩)
  · exact reduceShapesF_round_trip_of_id 64 g hg (fun z hz => truncId64 ⟨z, hz⟩)

/-- Witness for C1 at size 8 with the blank white grid. -/
theorem projection_round_trip_float_witness :
    gridValid 8 (whiteGrid 8) ∧
      reduceShapesF 8 512 (create_initial_drawing_json_fl (whiteGrid 8) 512).objects =
        Except.ok (whiteGrid 8) :=
  ⟨by decide, projection_round_trip_float 8 (Or.inl rfl) (whiteGrid 8) (by decide)⟩

set_option maxRecDepth 1000000 in
unseal Rat.mul Rat.inv in
/-- C1 counterexample: at size 12 the binary64 value of 7 * (512 / 12)
divided back by 512 / 12 truncates to 6, so reducing the projection of the
grid with cell (0, 7) red does not return the grid: it paints cell (0, 6)
red and leaves cell (0, 7) white. -/
theorem projection_round_trip_float_counterexample :
    gridValid 12 grid12 ∧
      getCell grid12 0 7 = (255, 0, 0) ∧ getCell grid12 0 6 = white ∧
      reduceShapesF 12 512 (create_initial_drawing_json_fl grid12 512).objects ≠
        Except.ok grid12 ∧
      Except.map (fun h => (getCell h 0 6, getCell h 0 7))
        (reduceShapesF 12 512 (create_initial_drawing_json_fl grid12 512).objects) =
        Except.ok ((255, 0, 0), white) :=
  ⟨by decide, by decide, by decide, by decide, by decide⟩

/- Lemmas about single reduction steps with arbitrary outcomes. -/

theorem applyObj_ok_cases {N : ℕ} {p : ℚ} {g g2 : Grid} {o : CanvasObj}
    (h : applyObj N p g o = Except.ok g2) :
    g2 = g ∨ ∃ y x c, parseFill o.fill = some c ∧ g2 = setCell g y x c := by
  by_cases ht : o.type = "rect"
  · rcases hf : parseFill o.fill with _ | c
    · rw [applyObj_bad_fill ht hf] at h
      simp at h
    · rw [applyObj_rect ht hf] at h
      split at h
      · simp at h
        exact Or.inr ⟨_, _, c, rfl, h.symm⟩
      · simp at h
        exact Or.inl h.symm
  · rw [applyObj_not_rect ht] at h
    simp at h
    exact Or.inl h.symm

theorem reduceLoop_valid {N : ℕ} {p : ℚ} :
    ∀ (objs : List CanvasObj) (g0 gout : Grid), gridValid N g0 →
      reduceLoop N p g0 objs = Except.ok gout → gridValid N gout := by
  intro objs
  induction objs with
  | nil =>
    intro g0 gout h hred
    rw [reduceLoop] at hred
    simp at hred
    rw [← hred]
    exact h
  | cons o rest ih =>
    intro g0 gout h hred
    rw [reduceLoop] at hred
    cases happ : applyObj N p g0 o with
    | error e => rw [happ] at hred; simp at hred
    | ok g2 =>
      rw [happ] at hred
      rcases applyObj_ok_cases happ with heq | ⟨y, x, c, hc, heq⟩
      · exact ih g2 gout (heq ▸ h) hred
      · exact ih g2 gout (heq ▸ gridValid_setCell h (parseFill_valid hc) y x) hred

theorem reduceLoop_preserves_cell {N : ℕ} {p : ℚ} {yi xi : ℤ}
    (hyi : 0 ≤ yi) (hxi : 0 ≤ xi) :
    ∀ (objs : List CanvasObj) (g0 gout : Grid),
      (∀ o ∈ objs, o.type = "rect" →
        (ratTrunc (o.top / p), ratTrunc (o.left / p)) ≠ (yi, xi)) →
      reduceLoop N p g0 objs = Except.ok gout →
      getCell gout yi.toNat xi.toNat = getCell g0 yi.toNat xi.toNat := by
  intro objs
  induction objs with
  | nil =>
    intro g0 gout _ hred
    rw [reduceLoop] at hred
    simp at hred
    rw [hred]
  | cons o rest ih =>
    intro g0 gout hno hred
    rw [reduceLoop] at hred
    cases happ : applyObj N p g0 o with
    | error e => rw [happ] at hred; simp at hred
    | ok g2 =>
      rw [happ] at hred
      have hrest := ih g2 gout (fun o2 h2 => hno o2 (List.mem_cons_of_mem _ h2)) hred
      rw [hrest]
      by_cases ht : o.type = "rect"
      · rcases hf : parseFill o.fill with _ | c
        · rw [applyObj_bad_fill ht hf] at happ
          simp at happ
        · rw [applyObj_rect ht hf] at happ
          by_cases hcond : (0 ≤ ratTrunc (o.top / p) ∧ ratTrunc (o.top / p) < (N : ℤ)) ∧
              (0 ≤ ratTrunc (o.left / p) ∧ ratTrunc (o.left / p) < (N : ℤ))
          · rw [if_pos hcond] at happ
            simp at happ
            rw [← happ]
            apply getCell_setCell_ne
            have hne := hno o (List.mem_cons_self o rest) ht
            by_contra hcontra
            push_neg at hcontra
            obtain ⟨e1, e2⟩ := hcontra
            have hyt := hcond.1.1
            have hxt := hcond.2.1
            exact hne (Prod.ext (by omega) (by omega))
          · rw [if_neg hcond] at happ
            simp at happ
            rw [← happ]
      · rw [applyObj_not_rect ht] at happ
        simp at happ
        rw [← happ]

theorem reduceLoop_error_of_bad {N : ℕ} {p : ℚ} :
    ∀ (objs : List CanvasObj) (g0 : Grid),
      (∃ o ∈ objs, o.type = "rect" ∧ parseFill o.fill = none) →
      reduceLoop N p g0 objs = Except.error "FormatError" := by
  intro objs
  induction objs with
  | nil =>
    intro g0 h
    obtain ⟨o, ho, _⟩ := h
    simp at ho
  | cons o rest ih =>
    intro g0 h
    obtain ⟨o2, ho2, hrect, hnone⟩ := h
    rcases List.mem_cons.mp ho2 with heq | hmem
    · subst heq
      rw [reduceLoop, applyObj_bad_fill hrect hnone]
    · rw [reduceLoop]
      cases happ : applyObj N p g0 o with
      | ok g2 => exact ih g2 ⟨o2, hmem, hrect, hnone⟩
      | error e => rw [applyObj_error happ]

/-- C10: every edit record whose type field is not rect is skipped entirely
and modifies no cell of the output grid. -/
theorem non_rect_skipped (N : ℕ) (D : ℚ) (pre post : List CanvasObj) (o : CanvasObj)
    (h : o.type ≠ "rect") :
    reduceShapes N D (pre ++ o :: post) = reduceShapes N D (pre ++ post) := by
  unfold reduceShapes
  rw [reduceLoop_append, reduceLoop_append]
  cases reduceLoop N (D / N) (whiteGrid N) pre with
  | ok g2 =>
    show reduceLoop N (D / N) g2 (o :: post) = reduceLoop N (D / N) g2 post
    rw [reduceLoop, applyObj_not_rect h]
  | error e => rfl

/-- Witness for C10: a circle record is skipped. -/
theorem non_rect_skipped_witness :
    circBad.type ≠ "rect" ∧
      reduceShapes 16 512 ([] ++ circBad :: []) = reduceShapes 16 512 ([] ++ []) :=
  ⟨by decide, non_rect_skipped 16 512 [] [] circBad (by decide)⟩

/-- C2 (amended): each rect shape with a well-formed fill targets the cell
whose column index is the truncation toward zero of left divided by D over N
and whose row index is the truncation toward zero of top divided by D over N;
when either truncated index falls outside the grid the shape is silently
discarded and contributes nothing. Python int() truncates toward zero, which
differs from the floor claimed by the spec on negative positions. -/
theorem reduce_target_trunc (N : ℕ) (D : ℚ) (objs : List CanvasObj) (o : CanvasObj)
    (c : Color) (ht : o.type = "rect") (hc : parseFill o.fill = some c) :
    reduceShapes N D (objs ++ [o]) =
      if (0 ≤ ratTrunc (o.top / (D / N)) ∧ ratTrunc (o.top / (D / N)) < (N : ℤ)) ∧
          (0 ≤ ratTrunc (o.left / (D / N)) ∧ ratTrunc (o.left / (D / N)) < (N : ℤ)) then
        Except.map
          (fun g => setCell g (ratTrunc (o.top / (D / N))).toNat
            (ratTrunc (o.left / (D / N))).toNat c)
          (reduceShapes N D objs)
      else reduceShapes N D objs := by
  unfold reduceShapes
  rw [reduceLoop_append]
  cases reduceLoop N (D / N) (whiteGrid N) objs with
  | ok g2 =>
    show reduceLoop N (D / N) g2 [o] = _
    rw [reduceLoop, applyObj_rect ht hc]
    by_cases hcond : (0 ≤ ratTrunc (o.top / (D / N)) ∧ ratTrunc (o.top / (D / N)) < (N : ℤ)) ∧
        (0 ≤ ratTrunc (o.left / (D / N)) ∧ ratTrunc (o.left / (D / N)) < (N : ℤ))
    · rw [if_pos hcond, if_pos hcond]
      rfl
    · rw [if_neg hcond, if_neg hcond]
      rfl
  | error e =>
    by_cases hcond : (0 ≤ ratTrunc (o.top / (D / N)) ∧ ratTrunc (o.top / (D / N)) < (N : ℤ)) ∧
        (0 ≤ ratTrunc (o.left / (D / N)) ∧ ratTrunc (o.left / (D / N)) < (N : ℤ))
    · rw [if_pos hcond]
      rfl
    · rw [if_neg hcond]

/-- Witness for C2: the worked example of the spec, one red rect at pixel
position (32, 32) on a 16 by 16 canvas lands in cell (1, 1). -/
theorem reduce_target_trunc_witness :
    demoRect.type = "rect" ∧ parseFill demoRect.fill = some (255, 0, 0) ∧
      reduceShapes 16 512 ([] ++ [demoRect]) =
        Except.ok (setCell (whiteGrid 16) 1 1 (255, 0, 0)) := by
  refine ⟨rfl, by decide, ?_⟩
  have H := reduce_target_trunc 16 512 [] demoRect (255, 0, 0) rfl (by decide)
  have hql : demoRect.left / ((512 : ℚ) / ((16 : ℕ) : ℚ)) = 1 := by norm_num [demoRect]
  have hqt : demoRect.top / ((512 : ℚ) / ((16 : ℕ) : ℚ)) = 1 := by norm_num [demoRect]
  rw [hql, hqt] at H
  have ht1 : ratTrunc (1 : ℚ) = 1 := by
    rw [ratTrunc, if_pos (by norm_num)]
    norm_num
  rw [ht1] at H
  rw [if_pos (by norm_num)] at H
  rw [H]
  rfl

/-- C2 counterexample: a rect whose floored column index is -1 is not
discarded; Python int() truncates toward zero, so the shape lands in column 0
and recolors cell (0, 0). -/
theorem reduce_floor_counterexample :
    ⌊negRect.left / ((512 : ℚ) / ((8 : ℕ) : ℚ))⌋ = -1 ∧
      reduceShapes 8 512 [negRect] = Except.ok (setCell (whiteGrid 8) 0 0 (255, 0, 0)) := by
  have hql : negRect.left / ((512 : ℚ) / ((8 : ℕ) : ℚ)) = -1 / 2 := by norm_num [negRect]
  have hqt : negRect.top / ((512 : ℚ) / ((8 : ℕ) : ℚ)) = 0 := by norm_num [negRect]
  constructor
  · rw [hql]
    norm_num
  · unfold reduceShapes
    rw [reduceLoop, applyObj_rect rfl (show parseFill negRect.fill = some (255, 0, 0) by decide)]
    rw [hql, hqt]
    have ht0 : ratTrunc (0 : ℚ) = 0 := by
      rw [ratTrunc, if_pos le_rfl]
      exact Int.floor_zero
    have htn : ratTrunc (-1 / 2 : ℚ) = 0 := by
      rw [ratTrunc, if_neg (by norm_num)]
      norm_num
    rw [ht0, htn]
    rw [if_pos (by norm_num)]
    rfl

/-- C3: when several in-range rect shapes target the same cell, the reduced
grid holds the color of the latest one in list order; earlier writes to that
cell are overwritten. -/
theorem later_shape_wins (N : ℕ) (D : ℚ) (pre post : List CanvasObj) (o : CanvasObj)
    (c : Color) (row col : ℕ) (gout : Grid)
    (ht : o.type = "rect") (hc : parseFill o.fill = some c)
    (hrow : ratTrunc (o.top / (D / N)) = (row : ℤ))
    (hcol : ratTrunc (o.left / (D / N)) = (col : ℤ))
    (hrowN : row < N) (hcolN : col < N)
    (hpost : ∀ o2 ∈ post, o2.type = "rect" →
      (ratTrunc (o2.top / (D / N)), ratTrunc (o2.left / (D / N))) ≠ ((row : ℤ), (col : ℤ)))
    (hred : reduceShapes N D (pre ++ o :: post) = Except.ok gout) :
    getCell gout row col = c := by
  unfold reduceShapes at hred
  rw [reduceLoop_append] at hred
  cases hpre : reduceLoop N (D / N) (whiteGrid N) pre with
  | error e => rw [hpre] at hred; simp at hred
  | ok g1 =>
    rw [hpre] at hred
    have hg1 : gridValid N g1 := reduceLoop_valid pre (whiteGrid N) g1 (whiteGrid_valid N) hpre
    replace hred : reduceLoop N (D / (N : ℚ)) g1 (o :: post) = Except.ok gout := hred
    rw [reduceLoop, applyObj_rect ht hc, hrow, hcol] at hred
    rw [if_pos ⟨⟨Int.natCast_nonneg row, by exact_mod_cast hrowN⟩,
      ⟨Int.natCast_nonneg col, by exact_mod_cast hcolN⟩⟩] at hred
    rw [Int.toNat_natCast, Int.toNat_natCast] at hred
    have hcell := reduceLoop_preserves_cell (Int.natCast_nonneg row) (Int.natCast_nonneg col)
      post (setCell g1 row col c) gout hpost hred
    rw [Int.toNat_natCast, Int.toNat_natCast] at hcell
    rw [hcell]
    have hylen : row < g1.length := by
      have := hg1.1.1
      omega
    have hrowlen : (g1.getD row []).length = N := by
      rw [getD_eq_get g1 [] hylen]
      exact hg1.1.2 _ (List.get_mem g1 row hylen)
    exact getCell_setCell_same hylen (by omega) c

theorem reduceLoop_cons_ok {N : ℕ} {p : ℚ} {g g2 : Grid} {o : CanvasObj}
    {rest : List CanvasObj} (h : applyObj N p g o = Except.ok g2) :
    reduceLoop N p g (o :: rest) = reduceLoop N p g2 rest := by
  rw [reduceLoop, h]

/-- Witness for C3: a red rect then a green rect at the same cell (1, 1); the
reduced grid holds green there. -/
theorem later_shape_wins_witness :
    parseFill demoRect2.fill = some (0, 255, 0) ∧
      ratTrunc (demoRect2.top / ((512 : ℚ) / ((16 : ℕ) : ℚ))) = (1 : ℤ) ∧
      ratTrunc (demoRect2.left / ((512 : ℚ) / ((16 : ℕ) : ℚ))) = (1 : ℤ) ∧
      reduceShapes 16 512 ([demoRect] ++ demoRect2 :: []) = Except.ok gWitness ∧
      getCell gWitness 1 1 = (0, 255, 0) := by
  have ht1 : ratTrunc (1 : ℚ) = 1 := by
    rw [ratTrunc, if_pos (by norm_num)]
    norm_num
  have hql : demoRect.left / ((512 : ℚ) / ((16 : ℕ) : ℚ)) = 1 := by norm_num [demoRect]
  have hqt : demoRect.top / ((512 : ℚ) / ((16 : ℕ) : ℚ)) = 1 := by norm_num [demoRect]
  have hql2 : demoRect2.left / ((512 : ℚ) / ((16 : ℕ) : ℚ)) = 1 := by norm_num [demoRect2]
  have hqt2 : demoRect2.top / ((512 : ℚ) / ((16 : ℕ) : ℚ)) = 1 := by norm_num [demoRect2]
  have s1 : applyObj 16 ((512 : ℚ) / ((16 : ℕ) : ℚ)) (whiteGrid 16) demoRect =
      Except.ok (setCell (whiteGrid 16) 1 1 (255, 0, 0)) := by
    rw [applyObj_rect rfl (show parseFill demoRect.fill = some (255, 0, 0) by decide)]
    rw [hqt, hql, ht1, if_pos (by norm_num)]
    rfl
  have s2 : applyObj 16 ((512 : ℚ) / ((16 : ℕ) : ℚ)) (setCell (whiteGrid 16) 1 1 (255, 0, 0))
      demoRect2 = Except.ok gWitness := by
    rw [applyObj_rect rfl (show parseFill demoRect2.fill = some (0, 255, 0) by decide)]
    rw [hqt2, hql2, ht1, if_pos (by norm_num)]
    rfl
  have hred : reduceShapes 16 512 ([demoRect] ++ demoRect2 :: []) = Except.ok gWitness := by
    unfold reduceShapes
    rw [show [demoRect] ++ demoRect2 :: [] = [demoRect, demoRect2] from rfl]
    rw [reduceLoop_cons_ok s1, reduceLoop_cons_ok s2]
    rfl
  refine ⟨by decide, by rw [hqt2]; exact ht1, by rw [hql2]; exact ht1, hred, ?_⟩
  exact later_shape_wins 16 512 [demoRect] [] demoRect2 (0, 255, 0) 1 1 gWitness rfl
    (by decide) (by rw [hqt2]; exact ht1) (by rw [hql2]; exact ht1) (by norm_num) (by norm_num)
    (by simp) hred

/-- C4 (amended): when any rect-type record of the edit list carries a
malformed fill string, the whole reduction fails with a FormatError and the
session grid is left completely unchanged; a malformed fill on a non-rect
record is never parsed and causes no failure. -/
theorem malformed_fill_atomic (s : EditorState) (objs : List CanvasObj)
    (h : ∃ o ∈ objs, o.type = "rect" ∧ parseFill o.fill = none) :
    reduceShapes s.canvas_size 512 objs = Except.error "FormatError" ∧
      stepEditor s (EditorOp.canvasEdit objs) = s := by
  have herr : reduceShapes s.canvas_size 512 objs = Except.error "FormatError" :=
    reduceLoop_error_of_bad objs (whiteGrid s.canvas_size) h
  refine ⟨herr, ?_⟩
  obtain ⟨o, ho, _⟩ := h
  have hne : objs ≠ [] := by
    intro hnil
    rw [hnil] at ho
    simp at ho
  simp [stepEditor, canvas_edit_action, hne, herr]

/-- Witness for C4: a rect filled with the string red makes the whole
reduction fail and leaves the session state untouched. -/
theorem malformed_fill_atomic_witness :
    (∃ o ∈ [badRect], o.type = "rect" ∧ parseFill o.fill = none) ∧
      (reduceShapes initialState.canvas_size 512 [badRect] = Except.error "FormatError" ∧
        stepEditor initialState (EditorOp.canvasEdit [badRect]) = initialState) :=
  ⟨⟨badRect, List.mem_cons_self badRect [], rfl, by decide⟩,
    malformed_fill_atomic initialState [badRect]
      ⟨badRect, List.mem_cons_self badRect [], rfl, by decide⟩⟩

/-- C4 counterexample: a non-rect record with a malformed fill string does
not make the reduction fail; the claim quantifies over every shape, but only
rect-type fills are ever parsed. -/
theorem malformed_fill_non_rect_counterexample :
    parseFill circBad.fill = none ∧
      reduceShapes 16 512 [circBad] = Except.ok (whiteGrid 16) := by
  constructor
  · decide
  · unfold reduceShapes
    rw [reduceLoop, applyObj_not_rect (show circBad.type ≠ "rect" by decide)]
    rfl

/-- C9: applying a size with an empty upload slot yields a fresh all-white
grid of the requested dimensions, whatever the previous state held. -/
theorem apply_size_blank_white (s : EditorState) (newSize : ℕ) :
    stepEditor s (EditorOp.applySize newSize Upload.blank) =
      { canvas_size := newSize,
        canvas_data := List.replicate newSize (List.replicate newSize (255, 255, 255)) } := rfl

/- Lemmas for the projection shape list. -/

theorem range_flatMap_map {α : Type} (f : ℕ → ℕ → α) (m : ℕ) :
    ∀ n, (List.range n).flatMap (fun y => (List.range m).map (f y)) =
      (List.range (n * m)).map (fun i => f (i / m) (i % m)) := by
  intro n
  induction n with
  | zero => simp
  | succ k ih =>
    rw [List.range_succ, List.flatMap_append, ih, List.flatMap_singleton,
      Nat.succ_mul, List.range_add, List.map_append, List.map_map]
    congr 1
    apply List.map_congr_left
    intro i hi
    have him : i < m := List.mem_range.mp hi
    have hm : 0 < m := by omega
    simp only [Function.comp]
    have hdiv : (k * m + i) / m = k := by
      rw [Nat.mul_comm k m, Nat.mul_add_div hm]
      simp [Nat.div_eq_of_lt him]
    have hmod : (k * m + i) % m = i := by
      rw [Nat.mul_comm k m, Nat.mul_add_mod]
      exact Nat.mod_eq_of_lt him
    rw [hdiv, hmod]

/-- C5: the projection emits exactly N squared rect records in row-major
order; the record for cell (row, col) sits at index row times N plus col,
positioned at (col times D over N, row times D over N) with side length D
over N, and its fill is the hex rendering of the cell color: a hash sign
followed by six hex digits. -/
theorem create_drawing_spec (N : ℕ) (D : ℚ) (g : Grid) (hg : gridValid N g)
    (y x : ℕ) (hy : y < N) (hx : x < N) :
    (create_initial_drawing_json g D).objects.length = N * N ∧
      (create_initial_drawing_json g D).objects[y * N + x]? =
        some { type := "rect", left := (x : ℚ) * (D / N), top := (y : ℚ) * (D / N),
               width := D / N, height := D / N, fill := rgb_to_hex (getCell g y x),
               stroke := "#DDDDDD", strokeWidth := 1, selectable := false,
               evented := false } ∧
      (rgb_to_hex (getCell g y x)).toList.length = 7 ∧
      (rgb_to_hex (getCell g y x)).toList.head? = some '#' := by
  have hlen : g.length = N := hg.1.1
  have hobj : (create_initial_drawing_json g D).objects =
      (List.range (N * N)).map (fun i => cellRect (D / N) g (i / N) (i % N)) := by
    show (List.range g.length).flatMap
        (fun y2 => (List.range g.length).map
          (fun x2 => cellRect (D / (g.length : ℚ)) g y2 x2)) = _
    rw [hlen]
    exact range_flatMap_map (cellRect (D / (N : ℚ)) g) N N
  have hidx : y * N + x < N * N := by
    have h1 : y * N + x < (y + 1) * N := by
      rw [add_mul, one_mul]
      omega
    have h2 : (y + 1) * N ≤ N * N := Nat.mul_le_mul (by omega) (le_refl N)
    omega
  have hdiv : (y * N + x) / N = y := by
    rw [Nat.mul_comm y N, Nat.mul_add_div (by omega)]
    simp [Nat.div_eq_of_lt hx]
  have hmod : (y * N + x) % N = x := by
    rw [Nat.mul_comm y N, Nat.mul_add_mod]
    exact Nat.mod_eq_of_lt hx
  refine ⟨?_, ?_, ?_, ?_⟩
  · rw [hobj]
    simp
  · rw [hobj, List.getElem?_map, List.getElem?_range hidx]
    show some (cellRect (D / (N : ℚ)) g ((y * N + x) / N) ((y * N + x) % N)) = _
    rw [hdiv, hmod]
    rfl
  · have hcv := getCell_valid hg hy hx
    rcases hval : getCell g y x with ⟨r, gg, b⟩
    rw [hval] at hcv
    obtain ⟨h1, h2, h3⟩ := hcv
    rw [toList_rgb_to_hex h1 h2 h3]
    rfl
  · have hcv := getCell_valid hg hy hx
    rcases hval : getCell g y x with ⟨r, gg, b⟩
    rw [hval] at hcv
    obtain ⟨h1, h2, h3⟩ := hcv
    rw [toList_rgb_to_hex h1 h2 h3]
    rfl

/-- Witness for C5 on a 2 by 2 white grid at cell (1, 0). -/
theorem create_drawing_spec_witness :
    gridValid 2 (whiteGrid 2) ∧
      ((create_initial_drawing_json (whiteGrid 2) 512).objects.length = 2 * 2 ∧
        (create_initial_drawing_json (whiteGrid 2) 512).objects[1 * 2 + 0]? =
          some { type := "rect", left := ((0 : ℕ) : ℚ) * (512 / (2 : ℕ)),
                 top := ((1 : ℕ) : ℚ) * (512 / (2 : ℕ)), width := (512 : ℚ) / (2 : ℕ),
                 height := (512 : ℚ) / (2 : ℕ),
                 fill := rgb_to_hex (getCell (whiteGrid 2) 1 0),
                 stroke := "#DDDDDD", strokeWidth := 1, selectable := false,
                 evented := false } ∧
        (rgb_to_hex (getCell (whiteGrid 2) 1 0)).toList.length = 7 ∧
        (rgb_to_hex (getCell (whiteGrid 2) 1 0)).toList.head? = some '#') :=
  ⟨by decide, create_drawing_spec 2 512 (whiteGrid 2) (by decide) 1 0
    (by norm_num) (by norm_num)⟩

/- Lemmas for pixelation. -/

theorem resize_sample_lt {a b w : ℕ} (hw : 0 < w) (hab : a < b) :
    (2 * a + 1) * w / (2 * b) < w := by
  rw [Nat.div_lt_iff_lt_mul (by omega)]
  rw [Nat.mul_comm w (2 * b)]
  exact (Nat.mul_lt_mul_right hw).mpr (by omega)

theorem apply_pixelation_valid (img : PImage) (himg : imgValid img) (size : ℕ) :
    gridValid size (apply_pixelation img size) := by
  obtain ⟨hw, hh, hpix⟩ := himg
  refine ⟨⟨by simp [apply_pixelation], ?_⟩, ?_⟩
  · intro row hrow
    simp only [apply_pixelation, List.mem_map] at hrow
    obtain ⟨y, hy, rfl⟩ := hrow
    simp
  · intro row hrow c hc
    simp only [apply_pixelation, List.mem_map] at hrow
    obtain ⟨y, hy, rfl⟩ := hrow
    simp only [List.mem_map, List.mem_range] at hc
    obtain ⟨x, hx, rfl⟩ := hc
    show colorValid (img.pix ((2 * x + 1) * img.width / (2 * size))
      ((2 * y + 1) * img.height / (2 * size)))
    have hys : y < size := List.mem_range.mp hy
    exact hpix _ (resize_sample_lt hw hx) _ (resize_sample_lt hh hys)

/-- C7: pixelating a solid-color image of any positive dimensions to any
target size yields that color at every cell of the resulting grid. -/
theorem pixelate_solid (img : PImage) (c : Color) (hw : 0 < img.width)
    (hh : 0 < img.height)
    (hsolid : ∀ x, x < img.width → ∀ y, y < img.height → img.pix x y = c)
    (size y x : ℕ) (hy : y < size) (hx : x < size) :
    getCell (apply_pixelation img size) y x = c := by
  have hrows : (apply_pixelation img size)[y]? =
      some ((List.range size).map (fun x2 => (resizeNearest img size size).pix x2 y)) := by
    show ((List.range size).map (fun y2 => (List.range size).map
      (fun x2 => (resizeNearest img size size).pix x2 y2)))[y]? = _
    rw [List.getElem?_map, List.getElem?_range hy]
    rfl
  rw [getCell, List.getD_eq_getElem?_getD (apply_pixelation img size) y [], hrows,
    Option.getD_some, List.getD_eq_getElem?_getD, List.getElem?_map,
    List.getElem?_range hx]
  show img.pix ((2 * x + 1) * img.width / (2 * size))
    ((2 * y + 1) * img.height / (2 * size)) = c
  exact hsolid _ (resize_sample_lt hw hx) _ (resize_sample_lt hh hy)

/-- Witness for C7: a solid 3 by 2 image pixelated to 8 by 8. -/
theorem pixelate_solid_witness :
    0 < solidDemoImg.width ∧ 0 < solidDemoImg.height ∧
      (∀ x, x < solidDemoImg.width → ∀ y, y < solidDemoImg.height →
        solidDemoImg.pix x y = (10, 20, 30)) ∧
      getCell (apply_pixelation solidDemoImg 8) 0 0 = (10, 20, 30) :=
  ⟨by decide, by decide, by decide,
    pixelate_solid solidDemoImg (10, 20, 30) (by decide) (by decide) (by decide) 8 0 0
      (by norm_num) (by norm_num)⟩

/-- C6 (amended): from a valid state, every operation whose library calls
succeed yields a valid state: grid dimensions equal the declared size and
every cell holds a valid RGB triple. An apply whose upload fails to decode is
excluded: it updates the declared size and keeps the old grid. -/
theorem editor_invariant_preserved (s : EditorState) (op : EditorOp)
    (hs : stateValid s) (hop : opOK op) : stateValid (stepEditor s op) := by
  cases op with
  | applySize n u =>
    cases u with
    | blank => exact whiteGrid_valid n
    | undecodable => exact hop.elim
    | image img => exact apply_pixelation_valid img hop n
  | resetCanvas => exact whiteGrid_valid s.canvas_size
  | canvasEdit objs =>
    by_cases hne : objs = []
    · subst hne
      simpa [stepEditor, canvas_edit_action] using hs
    · cases hred : reduceShapes s.canvas_size 512 objs with
      | ok g =>
        have hstep : stepEditor s (EditorOp.canvasEdit objs) = { s with canvas_data := g } := by
          simp [stepEditor, canvas_edit_action, hne, hred]
        rw [hstep]
        exact reduceLoop_valid objs (whiteGrid s.canvas_size) g
          (whiteGrid_valid s.canvas_size) hred
      | error e =>
        have hstep : stepEditor s (EditorOp.canvasEdit objs) = s := by
          simp [stepEditor, canvas_edit_action, hne, hred]
        rw [hstep]
        exact hs

/-- Witness for C6: the reset operation from the initial state. -/
theorem editor_invariant_witness :
    stateValid initialState ∧ opOK EditorOp.resetCanvas ∧
      stateValid (stepEditor initialState EditorOp.resetCanvas) :=
  ⟨by decide, trivial,
    editor_invariant_preserved initialState EditorOp.resetCanvas (by decide) trivial⟩

/-- C6 counterexample: applying size 20 with an undecodable upload updates
the declared size but keeps the old 16 by 16 grid, so the dimension
invariant breaks. -/
theorem editor_invariant_counterexample :
    stateValid initialState ∧
      ¬ stateValid (stepEditor initialState (EditorOp.applySize 20 Upload.undecodable)) := by
  constructor
  · decide
  · decide

/- Lemmas for the mixer pipeline. -/

theorem byteOfRat_natCast {n : ℕ} (h : n ≤ 255) : byteOfRat (n : ℚ) = n := by
  by_cases h0 : ((n : ℚ)) ≤ 0
  · have hn0 : n = 0 := by exact_mod_cast le_antisymm h0 (by positivity)
    rw [byteOfRat, if_pos h0, hn0]
  · by_cases h255 : (255 : ℚ) ≤ (n : ℚ)
    · have hn255 : n = 255 := le_antisymm h (by exact_mod_cast h255)
      rw [byteOfRat, if_neg h0, if_pos h255, hn255]
    · rw [byteOfRat, if_neg h0, if_neg h255, Int.floor_natCast, Int.toNat_natCast]

theorem byteOfRat_le (q : ℚ) : byteOfRat q ≤ 255 := by
  rw [byteOfRat]
  split_ifs with h1 h2
  · omega
  · exact le_refl 255
  · have hq : q ≤ 255 := le_of_not_le h2
    have h255 : (⌊(255 : ℚ)⌋ : ℤ) = 255 := by norm_num
    have hfl : ⌊q⌋ ≤ (255 : ℤ) := by
      have := Int.floor_le_floor hq
      rw [h255] at this
      exact this
    exact Int.toNat_le.mpr (by exact_mod_cast hfl)

theorem blendByte_one {d c : ℕ} (hc : c ≤ 255) : blendByte d c 1 = c := by
  rw [blendByte]
  have harg : ((d : ℚ) + 1 * ((c : ℚ) - (d : ℚ))) = (c : ℚ) := by ring
  rw [harg]
  exact byteOfRat_natCast hc

theorem blendColor_valid (d c : Color) (f : ℚ) : colorValid (blendColor d c f) :=
  ⟨byteOfRat_le _, byteOfRat_le _, byteOfRat_le _⟩

theorem blendColor_one {d c : Color} (hc : colorValid c) : blendColor d c 1 = c := by
  obtain ⟨c1, c2, c3⟩ := c
  obtain ⟨h1, h2, h3⟩ := hc
  rw [blendColor]
  rw [show ((c1, c2, c3) : Color).1 = c1 from rfl,
    show ((c1, c2, c3) : Color).2.1 = c2 from rfl,
    show ((c1, c2, c3) : Color).2.2 = c3 from rfl]
  rw [blendByte_one h1, blendByte_one h2, blendByte_one h3]

theorem enhanceBrightness_pix (img : PImage) (f : ℚ) (x y : ℕ) :
    (enhanceBrightness img f).pix x y = blendColor (0, 0, 0) (img.pix x y) f := rfl

theorem enhanceColor_pix (img : PImage) (f : ℚ) (x y : ℕ) :
    (enhanceColor img f).pix x y =
      blendColor (lumaByte (img.pix x y), lumaByte (img.pix x y), lumaByte (img.pix x y))
        (img.pix x y) f := rfl

theorem enhanceContrast_pix (img : PImage) (f : ℚ) (x y : ℕ) :
    (enhanceContrast img f).pix x y =
      blendColor (meanByte img, meanByte img, meanByte img) (img.pix x y) f := rfl

/-- C8: the mixer pipeline with filter Original, all three enhancement
factors 1, angle 0 and both mirror flags off returns an image equal to the
input on every pixel, with the same dimensions. -/
theorem process_image_neutral (img : PImage)
    (himg : ∀ x, x < img.width → ∀ y, y < img.height → colorValid (img.pix x y)) :
    imageEq (process_image img "Original" 1 1 1 0 false false) img := by
  have hproc : process_image img "Original" 1 1 1 0 false false =
      enhanceContrast (enhanceColor (enhanceBrightness img 1) 1) 1 := rfl
  rw [hproc]
  refine ⟨rfl, rfl, ?_⟩
  intro x hx y hy
  rw [enhanceContrast_pix, enhanceColor_pix, enhanceBrightness_pix]
  rw [blendColor_one (blendColor_valid _ _ _), blendColor_one (blendColor_valid _ _ _),
    blendColor_one (himg x hx y hy)]

/-- Witness for C8 on a small concrete image. -/
theorem process_image_neutral_witness :
    (∀ x, x < demoImg.width → ∀ y, y < demoImg.height → colorValid (demoImg.pix x y)) ∧
      imageEq (process_image demoImg "Original" 1 1 1 0 false false) demoImg :=
  ⟨by decide, process_image_neutral demoImg (by decide)⟩
